import Mathlib

/-!
Shallow embedding of the Praeda loot generator (src/generator.rs, src/models.rs).

Modelling conventions, applied uniformly:
* Rust `f64` values are modelled as `ℚ`.  The scaler's `powf` is modelled as
  `zpow` with an `ℤ` exponent, matching every call site: the level passed to
  `generate_value` is always an `i32` draw cast to `f64`.
* Rust `HashMap`s are modelled as association lists with `insertA`/`lookupA`;
  `insertA` replaces the value stored at an existing key, as `HashMap::insert`
  does, and appends otherwise.
* `serde_json::Value` metadata payloads are opaque to the generator (they are
  only stored and copied), so they are modelled as `String`.
* The thread RNG is modelled by explicit seed data (`Rand`).  A call
  `rng.random_range(lo..hi)` is modelled as `lo + seed % (hi - lo)` when the
  range is nonempty, and as the `panic` outcome when the range is empty, which
  is the documented behaviour of `rand`'s `random_range`.  Bernoulli outcomes
  (`rng.random::<f64>() < p` and `<= p`) are modelled as the booleans they
  produce.
* Rust's `f64 as i32` saturating cast truncates toward zero; it is modelled by
  `truncToInt` (saturation at the `i32` extremes is not modelled).
-/

namespace Praeda

/-- Outcome of a computation in the generator: Rust `Ok`, Rust `Err` (with the
error message), or a panic (reachable only through `rand::random_range` on an
empty range). -/
inductive GenResult (α : Type) where
  | ok : α → GenResult α
  | err : String → GenResult α
  | panic : GenResult α
deriving DecidableEq, Repr

/-- `true` exactly on the `ok` outcome. -/
def GenResult.isOk {α : Type} : GenResult α → Bool
  | .ok _ => true
  | _ => false

/-- Association-list lookup, modelling `HashMap::get`. -/
def lookupA {κ α : Type} [DecidableEq κ] : List (κ × α) → κ → Option α
  | [], _ => none
  | (k, v) :: rest, key => if k = key then some v else lookupA rest key

/-- Association-list insert, modelling `HashMap::insert`: replaces the value at
an existing key, appends a new pair otherwise. -/
def insertA {κ α : Type} [DecidableEq κ] : List (κ × α) → κ → α → List (κ × α)
  | [], key, v => [(key, v)]
  | (k, w) :: rest, key, v =>
      if k = key then (key, v) :: rest else (k, w) :: insertA rest key v

/-- `pat` is a leading segment of `s` (helper for the substring test). -/
def leadsWith : List Char → List Char → Bool
  | [], _ => true
  | _ :: _, [] => false
  | p :: ps, c :: cs => decide (p = c) && leadsWith ps cs

/-- Helper for `strContainsSub`: does `pat` occur in the list at any position? -/
def containsAux (pat : List Char) : List Char → Bool
  | [] => decide (pat = [])
  | c :: rest => leadsWith pat (c :: rest) || containsAux pat rest

/-- Substring containment, modelling Rust's `str::contains(&str)`. -/
def strContainsSub (s pat : String) : Bool :=
  containsAux pat.toList s.toList

/-- `struct ItemAttribute` from src/models.rs (f64 fields as `ℚ`). -/
structure ItemAttribute where
  name : String
  initial_value : ℚ
  min : ℚ
  max : ℚ
  required : Bool
  scaling_factor : ℚ
  chance : ℚ
deriving DecidableEq, Repr

/-- `ItemAttribute::new`: sets `scaling_factor = 1.0` and `chance = 0.0`. -/
def ItemAttribute.new (name : String) (initial_value min max : ℚ)
    (required : Bool) : ItemAttribute :=
  { name := name, initial_value := initial_value, min := min, max := max,
    required := required, scaling_factor := 1, chance := 0 }

/-- `ItemAttribute::set_initial_value`: seeds `min`/`max` with the new value
when both are currently zero, then stores the value. -/
def ItemAttribute.setInitialValue (a : ItemAttribute) (v : ℚ) : ItemAttribute :=
  let a1 := if a.min = 0 ∧ a.max = 0 then { a with min := v, max := v } else a
  { a1 with initial_value := v }

/-- First mutation of `generate_value`: seed `min`/`max` from a non-zero
`initial_value` when both bounds are zero. -/
def ItemAttribute.seedBounds (a : ItemAttribute) : ItemAttribute :=
  if a.min = 0 ∧ a.max = 0 ∧ a.initial_value ≠ 0
  then { a with min := a.initial_value, max := a.initial_value }
  else a

/-- Second mutation of `generate_value`: a zero `initial_value` becomes `1.0`
in exponential mode. -/
def ItemAttribute.expFloor (a : ItemAttribute) (linear : Bool) : ItemAttribute :=
  if a.initial_value = 0 ∧ linear = false
  then { a with initial_value := 1 }
  else a

/-- Third mutation of `generate_value`: linear mode adds
`level * scaling_factor`, exponential mode multiplies by
`scaling_factor ^ level`. -/
def ItemAttribute.scaleStep (a : ItemAttribute) (newLevel : ℤ)
    (linear : Bool) (scalingFactor : ℚ) : ItemAttribute :=
  if linear = true
  then { a with initial_value := a.initial_value + (newLevel : ℚ) * scalingFactor }
  else { a with initial_value := a.initial_value * scalingFactor ^ newLevel }

/-- Final mutation of `generate_value`: clamp a negative result to zero. -/
def ItemAttribute.clampStep (a : ItemAttribute) : ItemAttribute :=
  if a.initial_value < 0 then { a with initial_value := 0 } else a

/-- `ItemAttribute::generate_value` from src/models.rs: bounds seeding,
exponential zero floor, linear/exponential scaling, negative clamp, applied in
the source's statement order. -/
def ItemAttribute.generateValue (a : ItemAttribute) (newLevel : ℤ)
    (linear : Bool) (scalingFactor : ℚ) : ItemAttribute :=
  (((a.seedBounds).expFloor linear).scaleStep newLevel linear scalingFactor).clampStep

/-- `struct Affix` from src/models.rs. -/
structure Affix where
  name : String
  attributes : List ItemAttribute
deriving DecidableEq, Repr

/-- `Affix::empty`: the sentinel "no affix applied". -/
def Affix.empty : Affix := { name := "", attributes := [] }

/-- `Affix::set_attribute`: replace the attribute with the same name, else push. -/
def Affix.setAttribute (f : Affix) (newAttribute : ItemAttribute) : Affix :=
  { f with attributes := replaceByName f.attributes newAttribute }
where
  replaceByName : List ItemAttribute → ItemAttribute → List ItemAttribute
    | [], b => [b]
    | a :: rest, b =>
        if a.name = b.name then b :: rest else a :: replaceByName rest b

/-- `struct ItemType` from src/models.rs. -/
structure ItemType where
  item_type : String
  subtypes : List (String × Int)
  weight : Int
  metadata : List (String × String)
deriving DecidableEq, Repr

/-- `struct Item` from src/models.rs.  The Rust fields `prefix` and `suffix`
are named `pre` and `suf` here (`prefix` is reserved in Lean). -/
structure Item where
  name : String
  quality : String
  item_type : String
  subtype : String
  pre : Affix
  suf : Affix
  attributes : List (String × ItemAttribute)
  metadata : List (String × String)
deriving DecidableEq, Repr

/-- `struct GeneratorOptions` from src/models.rs. -/
structure GeneratorOptions where
  number_of_items : Nat
  base_level : ℚ
  level_variance : ℚ
  affix_chance : ℚ
  linear : Bool
  scaling_factor : ℚ
deriving DecidableEq, Repr

/-- `struct GeneratorOverrides` from src/models.rs. -/
structure GeneratorOverrides where
  quality_override : String
  type_override : String
  subtype_override : String
deriving DecidableEq, Repr

/-- `GeneratorOverrides::empty`. -/
def GeneratorOverrides.empty : GeneratorOverrides :=
  { quality_override := "", type_override := "", subtype_override := "" }

/-- `struct PraedaGenerator` from src/generator.rs. -/
structure PraedaGenerator where
  quality_data : List (String × Int)
  item_types : List ItemType
  item_list : List ((String × String) × List String)
  item_attributes : List ((String × String) × List ItemAttribute)
  item_affixes : List ((String × String) × (List Affix × List Affix))
  subtype_metadata : List ((String × String) × List (String × String))
  item_name_metadata : List ((String × String × String) × List (String × String))
  loot_list : List (String × List Item)
deriving DecidableEq, Repr

/-- `PraedaGenerator::new`. -/
def PraedaGenerator.new : PraedaGenerator :=
  { quality_data := [], item_types := [], item_list := [],
    item_attributes := [], item_affixes := [], subtype_metadata := [],
    item_name_metadata := [], loot_list := [] }

/-- `PraedaGenerator::has_quality`: empty argument is wildcard-true. -/
def PraedaGenerator.hasQuality (g : PraedaGenerator) (quality : String) : Bool :=
  if quality = "" then true else (lookupA g.quality_data quality).isSome

/-- `PraedaGenerator::has_item_type`: empty argument is wildcard-true. -/
def PraedaGenerator.hasItemType (g : PraedaGenerator) (typeName : String) : Bool :=
  if typeName = "" then true
  else g.item_types.any (fun it => decide (it.item_type = typeName))

/-- `PraedaGenerator::get_item_type`: first item type with the given name. -/
def PraedaGenerator.getItemType (g : PraedaGenerator) (typeName : String) :
    Option ItemType :=
  g.item_types.find? (fun it => decide (it.item_type = typeName))

/-- `PraedaGenerator::has_item_subtype`: empty type or subtype is wildcard-true. -/
def PraedaGenerator.hasItemSubtype (g : PraedaGenerator)
    (typeName subtype : String) : Bool :=
  if typeName = "" ∨ subtype = "" then true
  else
    match g.getItemType typeName with
    | some it => (lookupA it.subtypes subtype).isSome
    | none => false

/-- The attribute list stored at one exact `(type, subtype)` scope
(`entry(..).or_default()` reads as the empty list when absent). -/
def PraedaGenerator.attrsAt (g : PraedaGenerator) (typeName subtype : String) :
    List ItemAttribute :=
  (lookupA g.item_attributes (typeName, subtype)).getD []

/-- Accumulation step of `PraedaGenerator::set_attribute`: if an attribute of
the same name exists, add the incoming `initial_value` onto it in place;
otherwise push the incoming attribute at the end. -/
def addOrAccum : List ItemAttribute → ItemAttribute → List ItemAttribute
  | [], attr => [attr]
  | a :: rest, attr =>
      if a.name = attr.name then
        { a with initial_value := a.initial_value + attr.initial_value } :: rest
      else
        a :: addOrAccum rest attr

/-- `PraedaGenerator::set_attribute` from src/generator.rs. -/
def PraedaGenerator.setAttribute (g : PraedaGenerator)
    (typeName subtype : String) (attr : ItemAttribute) : PraedaGenerator :=
  let newList := addOrAccum (g.attrsAt typeName subtype) attr
  { g with item_attributes := insertA g.item_attributes (typeName, subtype) newList }

/-- `PraedaGenerator::has_attribute` from src/generator.rs: fails the type and
subtype existence checks first, then matches the attribute name literally at
the exact `(type, subtype)` key. -/
def PraedaGenerator.hasAttribute (g : PraedaGenerator)
    (typeName subtype attrName : String) : Bool :=
  if ¬ g.hasItemType typeName = true ∨ ¬ g.hasItemSubtype typeName subtype = true then
    false
  else
    match lookupA g.item_attributes (typeName, subtype) with
    | some attributes => attributes.any (fun a => decide (a.name = attrName))
    | none => false

/-- Sum of all weights, `weights.values().sum()`. -/
def totalWeight (w : List (String × Int)) : Int :=
  (w.map (fun p => p.2)).sum

/-- Lexicographic comparison of character lists by code point; on UTF-8
strings this is exactly the byte-wise `Ord` used by Rust's `sort()`. -/
def charListLe : List Char → List Char → Bool
  | [], _ => true
  | _ :: _, [] => false
  | a :: as, b :: bs =>
      if a.toNat < b.toNat then true
      else if b.toNat < a.toNat then false
      else charListLe as bs

/-- Lexicographic string comparison (Rust `String` ordering). -/
def strLeB (s t : String) : Bool :=
  charListLe s.data t.data

/-- The weight entries in lexicographically sorted key order, modelling
`sorted_keys.sort()` followed by `weights[key]` lookups (keys are distinct in a
`HashMap`, so each sorted key carries its unique weight). -/
def sortedEntries (w : List (String × Int)) : List (String × Int) :=
  List.insertionSort (fun p q => strLeB p.1 q.1 = true) w

/-- `rng.random_range(lo..hi)`: panics on an empty range, otherwise returns a
value in `[lo, hi)` determined here by the seed. -/
def randRange (lo hi seed : Int) : GenResult Int :=
  if lo < hi then .ok (lo + seed % (hi - lo)) else .panic

/-- `rng.random_range(lo..=hi)`: panics when `lo > hi`, otherwise returns a
value in `[lo, hi]` determined here by the seed. -/
def randRangeIncl (lo hi seed : Int) : GenResult Int :=
  if lo ≤ hi then .ok (lo + seed % (hi - lo + 1)) else .panic

/-- Key of the entry at position `i` (out-of-range positions never arise). -/
def keyAt (l : List (String × Int)) (i : Nat) : String :=
  (l.getD i ("", 0)).1

/-- Cumulative weight of the first `i` entries. -/
def cumWeight (l : List (String × Int)) (i : Nat) : Int :=
  totalWeight (l.take i)

/-- The selection loop of `weighted_random_select`: subtract each weight from
the roll and return the first key where the running value goes negative; the
fall-through produces the "should never reach here" error. -/
def selectWalk : List (String × Int) → Int → GenResult String
  | [], _ => .err "Failed to select from weights"
  | (k, w) :: rest, roll =>
      if roll - w < 0 then .ok k else selectWalk rest (roll - w)

/-- `PraedaGenerator::weighted_random_select` from src/generator.rs. -/
def weightedRandomSelect (w : List (String × Int)) (seed : Int) :
    GenResult String :=
  if w = [] then .err "No items to select from"
  else
    match randRange 0 (totalWeight w) seed with
    | .ok roll => selectWalk (sortedEntries w) roll
    | .err e => .err e
    | .panic => .panic

/-- Rust's `f64 as i32` cast: truncation toward zero. -/
def truncToInt (q : ℚ) : ℤ :=
  if 0 ≤ q then ⌊q⌋ else ⌈q⌉

/-- The four wildcard scope keys consulted for a `(type, subtype)` pair, in the
fixed order used by `generate_item` and `calculate_attributes`. -/
def scopeKeys (t s : String) : List (String × String) :=
  [("", ""), (t, ""), ("", s), (t, s)]

/-- Random data consumed by one `generate_item` call: the raw draws of the
thread RNG, one per draw site, plus the Bernoulli outcomes. -/
structure Rand where
  qualitySeed : Int
  typeSeed : Int
  subtypeSeed : Int
  nameSeed : Int
  wantPre : Bool
  wantSuf : Bool
  preSeed : Int
  sufSeed : Int
  levelSeed : Int
  optRolls : Nat → Bool

/-- A fixed random source for concrete evaluations. -/
def rand0 : Rand :=
  { qualitySeed := 0, typeSeed := 0, subtypeSeed := 0, nameSeed := 0,
    wantPre := false, wantSuf := false, preSeed := 0, sufSeed := 0,
    levelSeed := 0, optRolls := fun _ => false }

/-- Quality selection step of `generate_item`: the override wins when
non-empty, otherwise weighted selection over the quality map. -/
def selectQuality (g : PraedaGenerator) (ov : GeneratorOverrides)
    (seed : Int) : GenResult String :=
  if ov.quality_override ≠ "" then .ok ov.quality_override
  else weightedRandomSelect g.quality_data seed

/-- The name→weight map collected from the item-type list
(`HashMap` collect: a later duplicate name overwrites an earlier one). -/
def typeWeights (g : PraedaGenerator) : List (String × Int) :=
  g.item_types.foldl (fun m it => insertA m it.item_type it.weight) []

/-- Item-type selection step of `generate_item`. -/
def selectItemType (g : PraedaGenerator) (ov : GeneratorOverrides)
    (seed : Int) : GenResult String :=
  if ov.type_override ≠ "" then .ok ov.type_override
  else weightedRandomSelect (typeWeights g) seed

/-- Subtype selection step of `generate_item`: the override wins when
non-empty; otherwise weighted selection over the chosen type's subtype map,
or the empty string when the chosen type is not configured. -/
def selectSubtype (g : PraedaGenerator) (ov : GeneratorOverrides)
    (itemType : String) (seed : Int) : GenResult String :=
  if ov.subtype_override ≠ "" then .ok ov.subtype_override
  else
    match g.getItemType itemType with
    | some itObj => weightedRandomSelect itObj.subtypes seed
    | none => .ok ""

/-- Name selection step of `generate_item`: a uniform pick from the configured
name list, or the subtype string when the list is absent or empty.  The list
is non-empty at the indexing site, so the draw `random_range(0..len)` cannot
panic and the `getD` default is never used. -/
def pickName (g : PraedaGenerator) (t s : String) (seed : Int) : String :=
  match lookupA g.item_list (t, s) with
  | some names =>
      if names = [] then s
      else names.getD (seed % (names.length : Int)).toNat s
  | none => s

/-- Affix selection step of `generate_item`: when either Bernoulli trial
succeeded, pool the prefixes/suffixes from all four scope keys (without
de-duplication) and pick uniformly from each non-empty pool as wanted. -/
def pickAffixes (g : PraedaGenerator) (t s : String) (r : Rand) :
    Affix × Affix :=
  if r.wantPre || r.wantSuf then
    let pools := (scopeKeys t s).foldl
      (fun (acc : List Affix × List Affix) key =>
        match lookupA g.item_affixes key with
        | some pr =>
            ((if r.wantPre then acc.1 ++ pr.1 else acc.1),
             (if r.wantSuf then acc.2 ++ pr.2 else acc.2))
        | none => acc)
      ([], [])
    let preChosen :=
      if r.wantPre && decide (pools.1 ≠ []) then
        pools.1.getD (r.preSeed % (pools.1.length : Int)).toNat Affix.empty
      else Affix.empty
    let sufChosen :=
      if r.wantSuf && decide (pools.2 ≠ []) then
        pools.2.getD (r.sufSeed % (pools.2.length : Int)).toNat Affix.empty
      else Affix.empty
    (preChosen, sufChosen)
  else (Affix.empty, Affix.empty)

/-- Level draw of `calculate_attributes`:
`random_range((base-variance) as i32 ..= (base+variance) as i32)`. -/
def calcLevel (o : GeneratorOptions) (seed : Int) : GenResult Int :=
  randRangeIncl (truncToInt (o.base_level - o.level_variance))
    (truncToInt (o.base_level + o.level_variance)) seed

/-- One required-attribute list applied to the accumulator: required
attributes are stored immediately (`_requirement`-named ones are assigned the
generated level, others are scaled); non-required ones are deferred into the
optional pool. -/
def applyRequired (lvl : Int) (o : GeneratorOptions)
    (attrs : List ItemAttribute)
    (acc : List (String × ItemAttribute) × List ItemAttribute) :
    List (String × ItemAttribute) × List ItemAttribute :=
  attrs.foldl
    (fun acc attr =>
      if attr.required then
        let newAttr :=
          if strContainsSub attr.name "_requirement" then
            attr.setInitialValue (lvl : ℚ)
          else
            attr.generateValue lvl o.linear o.scaling_factor
        (insertA acc.1 attr.name newAttr, acc.2)
      else
        (acc.1, acc.2 ++ [attr]))
    acc

/-- The required-attribute pass of `calculate_attributes` over the four scope
keys in order, also collecting the optional pool. -/
def requiredStage (g : PraedaGenerator) (t s : String) (lvl : Int)
    (o : GeneratorOptions) (attrs0 : List (String × ItemAttribute)) :
    List (String × ItemAttribute) × List ItemAttribute :=
  (scopeKeys t s).foldl
    (fun acc key =>
      match lookupA g.item_attributes key with
      | some attrs => applyRequired lvl o attrs acc
      | none => acc)
    (attrs0, [])

/-- One optional attribute applied on a successful chance roll: merge onto an
existing same-named attribute by adding `initial_value`, or adopt it (scaling
unless `_requirement`-named); then force `_requirement`-named results to the
generated level; then store. -/
def optionalStep (lvl : Int) (o : GeneratorOptions) (attr : ItemAttribute)
    (m : List (String × ItemAttribute)) : List (String × ItemAttribute) :=
  let merged :=
    match lookupA m attr.name with
    | some existing =>
        { existing with initial_value := existing.initial_value + attr.initial_value }
    | none =>
        if strContainsSub attr.name "_requirement" = false then
          attr.generateValue lvl o.linear o.scaling_factor
        else attr
  let finalAttr :=
    if strContainsSub merged.name "_requirement" then
      merged.setInitialValue (lvl : ℚ)
    else merged
  insertA m attr.name finalAttr

/-- The optional-attribute pass of `calculate_attributes`: each deferred
attribute is applied when its chance roll succeeds. -/
def optionalStage (lvl : Int) (o : GeneratorOptions) (rolls : Nat → Bool)
    (pool : List ItemAttribute) (m : List (String × ItemAttribute)) :
    List (String × ItemAttribute) :=
  (pool.enum.foldl
    (fun m p => if rolls p.1 then optionalStep lvl o p.2 m else m) m)

/-- One prefix/suffix attribute applied: merge onto an existing same-named
attribute by adding `initial_value`, or adopt as-is; then force
`_requirement`-named results to the generated level; then store. -/
def affixStep (lvl : Int) (attr : ItemAttribute)
    (m : List (String × ItemAttribute)) : List (String × ItemAttribute) :=
  let merged :=
    match lookupA m attr.name with
    | some existing =>
        { existing with initial_value := existing.initial_value + attr.initial_value }
    | none => attr
  let finalAttr :=
    if strContainsSub merged.name "_requirement" then
      merged.setInitialValue (lvl : ℚ)
    else merged
  insertA m attr.name finalAttr

/-- Application of all attributes carried by one affix. -/
def affixStage (lvl : Int) (attrs : List ItemAttribute)
    (m : List (String × ItemAttribute)) : List (String × ItemAttribute) :=
  attrs.foldl (fun m a => affixStep lvl a m) m

/-- `PraedaGenerator::calculate_attributes` from src/generator.rs: draw the
level, store it as a non-required "level" attribute with zero bounds, then run
the required, optional, prefix and suffix passes over the item's attribute
map. -/
def calculateAttributes (g : PraedaGenerator) (item : Item)
    (o : GeneratorOptions) (seed : Int) (rolls : Nat → Bool) :
    GenResult Item :=
  match calcLevel o seed with
  | .ok lvl =>
      let m0 := insertA item.attributes "level"
        (ItemAttribute.new "level" (lvl : ℚ) 0 0 false)
      let step1 := requiredStage g item.item_type item.subtype lvl o m0
      let m2 := optionalStage lvl o rolls step1.2 step1.1
      let m3 := affixStage lvl item.pre.attributes m2
      let m4 := affixStage lvl item.suf.attributes m3
      .ok { item with attributes := m4 }
  | .err e => .err e
  | .panic => .panic

/-- Metadata attachment at the end of `generate_item`: subtype-level entries
first, then per-item-name entries (overriding identical keys). -/
def attachMeta (g : PraedaGenerator) (t s : String) (it : Item) : Item :=
  let it1 :=
    match lookupA g.subtype_metadata (t, s) with
    | some md => { it with metadata := md.foldl (fun m p => insertA m p.1 p.2) it.metadata }
    | none => it
  match lookupA g.item_name_metadata (t, s, it1.name) with
  | some md => { it1 with metadata := md.foldl (fun m p => insertA m p.1 p.2) it1.metadata }
  | none => it1

/-- `PraedaGenerator::generate_item` from src/generator.rs. -/
def generateItem (g : PraedaGenerator) (o : GeneratorOptions)
    (ov : GeneratorOverrides) (r : Rand) : GenResult Item :=
  match selectQuality g ov r.qualitySeed with
  | .err e => .err e
  | .panic => .panic
  | .ok q =>
    match selectItemType g ov r.typeSeed with
    | .err e => .err e
    | .panic => .panic
    | .ok t =>
      match selectSubtype g ov t r.subtypeSeed with
      | .err e => .err e
      | .panic => .panic
      | .ok s =>
        match calculateAttributes g
          { name := pickName g t s r.nameSeed, quality := q, item_type := t,
            subtype := s, pre := (pickAffixes g t s r).1,
            suf := (pickAffixes g t s r).2, attributes := [], metadata := [] }
          o r.levelSeed r.optRolls with
        | .err e => .err e
        | .panic => .panic
        | .ok it => .ok (attachMeta g t s it)

/-- The generation loop of `generate_loot`: items `i, i+1, ...` until `n` have
been produced, with any failure aborting the whole batch. -/
def genItems (g : PraedaGenerator) (o : GeneratorOptions)
    (ov : GeneratorOverrides) (rands : Nat → Rand) :
    Nat → Nat → GenResult (List Item)
  | 0, _ => .ok []
  | n + 1, i =>
      match generateItem g o ov (rands i) with
      | .ok it =>
          match genItems g o ov rands n (i + 1) with
          | .ok rest => .ok (it :: rest)
          | .err e => .err e
          | .panic => .panic
      | .err e => .err e
      | .panic => .panic

/-- `PraedaGenerator::generate_loot` from src/generator.rs: generate the batch
and, on success only, store it in the loot list under the given key.  The
returned generator is the post-call state of `&mut self`. -/
def generateLoot (g : PraedaGenerator) (o : GeneratorOptions)
    (ov : GeneratorOverrides) (key : String) (rands : Nat → Rand) :
    GenResult (List Item) × PraedaGenerator :=
  match genItems g o ov rands o.number_of_items 0 with
  | .ok items => (.ok items, { g with loot_list := insertA g.loot_list key items })
  | .err e => (.err e, g)
  | .panic => (.panic, g)

/-- Invariant carried through the attribute pipeline: every stored attribute
is keyed by its own name, and every `_requirement`-named stored attribute has
the generated level as its value. -/
def ReqInv (lvl : Int) (m : List (String × ItemAttribute)) : Prop :=
  ∀ p ∈ m, p.1 = p.2.name
    ∧ (strContainsSub p.2.name "_requirement" = true → p.2.initial_value = (lvl : ℚ))

/-- Concrete catalog used for evaluations: one required `_requirement`-named
attribute configured at the global scope. -/
def reqGen : PraedaGenerator :=
  { PraedaGenerator.new with item_attributes :=
      [(("", ""),
        [{ name := "level_requirement", initial_value := 0, min := 0, max := 0,
           required := true, scaling_factor := 1, chance := 0 }])] }

/-- Concrete attribute-free item used for evaluations. -/
def blankItem : Item :=
  { name := "n", quality := "q", item_type := "", subtype := "",
    pre := Affix.empty, suf := Affix.empty, attributes := [], metadata := [] }

/-- Concrete options used for evaluations: level 7 with no variance. -/
def levelOptions : GeneratorOptions :=
  { number_of_items := 1, base_level := 7, level_variance := 0,
    affix_chance := 1, linear := true, scaling_factor := 1 }

/-- Concrete options with fractional level bounds: base 10.5, variance 0.3. -/
def fracOptions : GeneratorOptions :=
  { number_of_items := 1, base_level := 21/2, level_variance := 3/10,
    affix_chance := 0, linear := true, scaling_factor := 1 }

/-- Concrete options with integral level bounds: base 10, variance 2. -/
def rangeOptions : GeneratorOptions :=
  { number_of_items := 1, base_level := 10, level_variance := 2,
    affix_chance := 0, linear := true, scaling_factor := 1 }

/-- Result of `calculateAttributes reqGen blankItem levelOptions 0` with
all-true optional rolls. -/
def reqOut : Item :=
  { blankItem with attributes :=
      [("level",
        { name := "level", initial_value := 7, min := 0, max := 0,
          required := false, scaling_factor := 1, chance := 0 }),
       ("level_requirement",
        { name := "level_requirement", initial_value := 7, min := 7, max := 7,
          required := true, scaling_factor := 1, chance := 0 })] }

/-- Concrete options requesting zero items. -/
def zeroOptions : GeneratorOptions :=
  { number_of_items := 0, base_level := 1, level_variance := 0,
    affix_chance := 0, linear := true, scaling_factor := 1 }

/-- Concrete overrides forcing quality, type and subtype. -/
def forceOverrides : GeneratorOverrides :=
  { quality_override := "epic", type_override := "weapon",
    subtype_override := "sword" }

/-- The single item produced by `generateLoot PraedaGenerator.new levelOptions
forceOverrides "k" (fun _ => rand0)`. -/
def swordItem : Item :=
  { name := "sword", quality := "epic", item_type := "weapon",
    subtype := "sword", pre := Affix.empty, suf := Affix.empty,
    attributes :=
      [("level",
        { name := "level", initial_value := 7, min := 0, max := 0,
          required := false, scaling_factor := 1, chance := 0 })],
    metadata := [] }

/-- Concrete item type used for lookup evaluations. -/
def swordType : ItemType :=
  { item_type := "weapon", subtypes := [("sword", 2)], weight := 1,
    metadata := [] }

/-- Concrete catalog with a registered type/subtype and one attribute stored
at that scope. -/
def subGen : PraedaGenerator :=
  { PraedaGenerator.new with
    item_types := [swordType],
    item_attributes :=
      [(("weapon", "sword"), [ItemAttribute.new "damage" 5 1 10 true])] }

/-- Concrete catalog with an attribute list stored at ("weapon", "sword") but
no registered item types, so the existence checks gate `has_attribute`. -/
def gateGen : PraedaGenerator :=
  { PraedaGenerator.new with
    item_attributes :=
      [(("weapon", "sword"), [ItemAttribute.new "damage" 5 1 10 true])] }

/-! ## Helper lemmas -/

theorem isOk_iff {α : Type} (r : GenResult α) :
    r.isOk = true ↔ ∃ a, r = .ok a := by
  cases r <;> simp [GenResult.isOk]

theorem lookupA_insertA_self {κ α : Type} [DecidableEq κ]
    (l : List (κ × α)) (k : κ) (v : α) :
    lookupA (insertA l k v) k = some v := by
  induction l with
  | nil => simp [insertA, lookupA]
  | cons p rest ih =>
      by_cases h : p.1 = k
      · simp [insertA, h, lookupA]
      · simpa [insertA, h, lookupA] using ih

theorem mem_insertA {κ α : Type} [DecidableEq κ]
    (l : List (κ × α)) (k : κ) (v : α) (p : κ × α) :
    p ∈ insertA l k v → p ∈ l ∨ p = (k, v) := by
  induction l with
  | nil => intro h; simp [insertA] at h; right; exact h
  | cons q rest ih =>
      intro h
      by_cases hq : q.1 = k
      · simp [insertA, hq] at h
        rcases h with h | h
        · right; simpa using h
        · left; exact List.mem_cons_of_mem _ h
      · simp [insertA, hq] at h
        rcases h with h | h
        · left; simp [h]
        · rcases ih h with h1 | h1
          · left; exact List.mem_cons_of_mem _ h1
          · right; exact h1

theorem lookupA_mem {κ α : Type} [DecidableEq κ]
    (l : List (κ × α)) (k : κ) (v : α) :
    lookupA l k = some v → (k, v) ∈ l := by
  induction l with
  | nil => intro h; simp [lookupA] at h
  | cons p rest ih =>
      obtain ⟨k1, v1⟩ := p
      intro h
      by_cases hp : k1 = k
      · subst hp
        simp [lookupA] at h
        cases h
        exact List.mem_cons_self _ _
      · simp only [lookupA, if_neg hp] at h
        exact List.mem_cons_of_mem _ (ih h)

theorem lookupA_isSome_iff {κ α : Type} [DecidableEq κ]
    (l : List (κ × α)) (k : κ) :
    (lookupA l k).isSome = true ↔ ∃ v, (k, v) ∈ l := by
  induction l with
  | nil => simp [lookupA]
  | cons p rest ih =>
      obtain ⟨k1, v1⟩ := p
      by_cases hp : k1 = k
      · subst hp
        simp [lookupA]
      · simp only [lookupA, if_neg hp, ih]
        constructor
        · rintro ⟨v, hv⟩
          exact ⟨v, List.mem_cons_of_mem _ hv⟩
        · rintro ⟨v, hv⟩
          rcases List.mem_cons.mp hv with h | h
          · injection h with h1 _
            exact absurd h1.symm hp
          · exact ⟨v, h⟩

theorem totalWeight_nil : totalWeight [] = 0 := rfl

theorem totalWeight_cons (k : String) (wt : Int) (rest : List (String × Int)) :
    totalWeight ((k, wt) :: rest) = wt + totalWeight rest := by
  simp [totalWeight]

theorem cumWeight_zero (l : List (String × Int)) : cumWeight l 0 = 0 := rfl

theorem cumWeight_cons (k : String) (wt : Int) (rest : List (String × Int))
    (n : Nat) : cumWeight ((k, wt) :: rest) (n + 1) = wt + cumWeight rest n := by
  simp [cumWeight, totalWeight]

theorem selectWalk_isOk (l : List (String × Int)) :
    ∀ d : Int, 0 ≤ d → d < totalWeight l → (selectWalk l d).isOk = true := by
  induction l with
  | nil =>
      intro d h0 h1
      rw [totalWeight_nil] at h1
      omega
  | cons p rest ih =>
      intro d h0 h1
      obtain ⟨k, wt⟩ := p
      rw [totalWeight_cons] at h1
      by_cases hc : d - wt < 0
      · simp [selectWalk, hc, GenResult.isOk]
      · simp only [selectWalk, if_neg hc]
        exact ih (d - wt) (by omega) (by omega)

theorem selectWalk_first (l : List (String × Int)) :
    ∀ (d : Int) (i : Nat), i < l.length →
      d < cumWeight l (i + 1) →
      (∀ j : Nat, j < i → cumWeight l (j + 1) ≤ d) →
      selectWalk l d = .ok (keyAt l i) := by
  induction l with
  | nil =>
      intro d i hi _ _
      simp at hi
  | cons p rest ih =>
      intro d i hi hc hf
      obtain ⟨k, wt⟩ := p
      cases i with
      | zero =>
          rw [cumWeight_cons, cumWeight_zero] at hc
          have : d - wt < 0 := by omega
          simp [selectWalk, this, keyAt]
      | succ j =>
          have h0 : cumWeight ((k, wt) :: rest) 1 ≤ d := hf 0 (Nat.succ_pos j)
          rw [cumWeight_cons, cumWeight_zero] at h0
          have hnot : ¬ d - wt < 0 := by omega
          simp only [selectWalk, if_neg hnot]
          have hkey : keyAt ((k, wt) :: rest) (j + 1) = keyAt rest j := by
            simp [keyAt]
          rw [hkey]
          apply ih (d - wt) j (by simpa using hi)
          · rw [cumWeight_cons] at hc
            omega
          · intro j' hj'
            have := hf (j' + 1) (by omega)
            rw [cumWeight_cons] at this
            omega

theorem selectWalk_err_msg (l : List (String × Int)) :
    ∀ (d : Int) (m : String), selectWalk l d = .err m →
      m = "Failed to select from weights" := by
  induction l with
  | nil =>
      intro d m h
      simp [selectWalk] at h
      exact h.symm
  | cons p rest ih =>
      intro d m h
      obtain ⟨k, wt⟩ := p
      by_cases hc : d - wt < 0
      · simp [selectWalk, hc] at h
      · simp only [selectWalk, if_neg hc] at h
        exact ih _ _ h

theorem charListLe_total : ∀ a b : List Char,
    charListLe a b = true ∨ charListLe b a = true := by
  intro a
  induction a with
  | nil => intro b; left; rfl
  | cons c cs ih =>
      intro b
      cases b with
      | nil => right; rfl
      | cons d ds =>
          by_cases h1 : c.toNat < d.toNat
          · left; simp [charListLe, h1]
          · by_cases h2 : d.toNat < c.toNat
            · right; simp [charListLe, h2]
            · rcases ih ds with h | h
              · left; simp [charListLe, h1, h2, h]
              · right; simp [charListLe, h1, h2, h]

theorem charListLe_trans : ∀ a b c : List Char,
    charListLe a b = true → charListLe b c = true → charListLe a c = true := by
  intro a
  induction a with
  | nil => intro b c _ _; rfl
  | cons x xs ih =>
      intro b c hab hbc
      cases b with
      | nil => simp [charListLe] at hab
      | cons y ys =>
          cases c with
          | nil => simp [charListLe] at hbc
          | cons z zs =>
              simp only [charListLe] at hab hbc ⊢
              by_cases hxy : x.toNat < y.toNat
              · by_cases hyz : y.toNat < z.toNat
                · simp [show x.toNat < z.toNat by omega]
                · by_cases hzy : z.toNat < y.toNat
                  · simp [hyz, hzy] at hbc
                  · simp [show x.toNat < z.toNat by omega]
              · by_cases hyx : y.toNat < x.toNat
                · simp [hxy, hyx] at hab
                · by_cases hyz : y.toNat < z.toNat
                  · simp [show x.toNat < z.toNat by omega]
                  · by_cases hzy : z.toNat < y.toNat
                    · simp [hyz, hzy] at hbc
                    · have hxz : ¬ x.toNat < z.toNat := by omega
                      have hzx : ¬ z.toNat < x.toNat := by omega
                      rw [if_neg hxy, if_neg hyx] at hab
                      rw [if_neg hyz, if_neg hzy] at hbc
                      rw [if_neg hxz, if_neg hzx]
                      exact ih ys zs hab hbc

theorem totalWeight_sortedEntries (w : List (String × Int)) :
    totalWeight (sortedEntries w) = totalWeight w := by
  unfold totalWeight sortedEntries
  exact List.Perm.sum_eq
    (List.Perm.map _ (List.perm_insertionSort (fun p q => strLeB p.1 q.1 = true) w))

theorem sortedEntries_length (w : List (String × Int)) :
    (sortedEntries w).length = w.length := by
  unfold sortedEntries
  exact (List.perm_insertionSort (fun p q => strLeB p.1 q.1 = true) w).length_eq

theorem weightedRandomSelect_eq_walk (w : List (String × Int)) (d : Int)
    (hne : w ≠ []) (hpos : 0 < totalWeight w) (h0 : 0 ≤ d)
    (h1 : d < totalWeight w) :
    weightedRandomSelect w d = selectWalk (sortedEntries w) d := by
  simp only [weightedRandomSelect, randRange, if_neg hne, sub_zero,
    if_pos hpos, zero_add, Int.emod_eq_of_lt h0 h1]

theorem weightedRandomSelect_ok_of_pos (w : List (String × Int)) (seed : Int)
    (hne : w ≠ []) (hpos : 0 < totalWeight w) :
    ∃ k, weightedRandomSelect w seed = .ok k := by
  have hq0 : 0 ≤ seed % totalWeight w := Int.emod_nonneg seed (by omega)
  have hq1 : seed % totalWeight w < totalWeight w := Int.emod_lt_of_pos seed hpos
  have hred : weightedRandomSelect w seed = selectWalk (sortedEntries w) (seed % totalWeight w) := by
    simp only [weightedRandomSelect, randRange, if_neg hne, sub_zero,
      if_pos hpos, zero_add]
  rw [hred]
  have hok := selectWalk_isOk (sortedEntries w) (seed % totalWeight w) hq0
    (by rw [totalWeight_sortedEntries]; exact hq1)
  exact (isOk_iff _).mp hok

theorem weightedRandomSelect_err_msg (w : List (String × Int)) (seed : Int)
    (m : String) (h : weightedRandomSelect w seed = .err m) :
    m = "No items to select from" ∨ m = "Failed to select from weights" := by
  by_cases hne : w = []
  · subst hne
    simp [weightedRandomSelect] at h
    left; exact h.symm
  · simp only [weightedRandomSelect, if_neg hne, randRange, sub_zero] at h
    by_cases hpos : 0 < totalWeight w
    · rw [if_pos hpos] at h
      exact Or.inr (selectWalk_err_msg _ _ _ h)
    · rw [if_neg hpos] at h
      exact absurd h (by simp)

theorem weightedRandomSelect_nonempty_ne_errNoItems (w : List (String × Int))
    (seed : Int) (hne : w ≠ []) :
    weightedRandomSelect w seed ≠ .err "No items to select from" := by
  intro h
  simp only [weightedRandomSelect, if_neg hne, randRange, sub_zero] at h
  by_cases hpos : 0 < totalWeight w
  · rw [if_pos hpos] at h
    have := selectWalk_err_msg _ _ _ h
    simp at this
  · rw [if_neg hpos] at h
    exact absurd h (by simp)

instance : IsTotal (String × Int) (fun p q => strLeB p.1 q.1 = true) :=
  ⟨fun a b => charListLe_total a.1.data b.1.data⟩

instance : IsTrans (String × Int) (fun p q => strLeB p.1 q.1 = true) :=
  ⟨fun a b c h1 h2 => charListLe_trans a.1.data b.1.data c.1.data h1 h2⟩

theorem setInitialValue_initial (a : ItemAttribute) (v : ℚ) :
    (a.setInitialValue v).initial_value = v := by
  unfold ItemAttribute.setInitialValue
  split_ifs <;> rfl

theorem setInitialValue_name (a : ItemAttribute) (v : ℚ) :
    (a.setInitialValue v).name = a.name := by
  unfold ItemAttribute.setInitialValue
  split_ifs <;> rfl

theorem clampStep_initial (a : ItemAttribute) :
    a.clampStep.initial_value = max a.initial_value 0 := by
  unfold ItemAttribute.clampStep
  split_ifs with h
  · exact (max_eq_right h.le).symm
  · exact (max_eq_left (not_lt.mp h)).symm

theorem clampStep_fields (a : ItemAttribute) :
    a.clampStep.name = a.name ∧ a.clampStep.min = a.min
      ∧ a.clampStep.max = a.max ∧ a.clampStep.required = a.required
      ∧ a.clampStep.scaling_factor = a.scaling_factor
      ∧ a.clampStep.chance = a.chance := by
  unfold ItemAttribute.clampStep
  split_ifs <;> exact ⟨rfl, rfl, rfl, rfl, rfl, rfl⟩

theorem scaleStep_fields (a : ItemAttribute) (lvl : ℤ) (lin : Bool) (sf : ℚ) :
    (a.scaleStep lvl lin sf).name = a.name
      ∧ (a.scaleStep lvl lin sf).min = a.min
      ∧ (a.scaleStep lvl lin sf).max = a.max
      ∧ (a.scaleStep lvl lin sf).required = a.required
      ∧ (a.scaleStep lvl lin sf).scaling_factor = a.scaling_factor
      ∧ (a.scaleStep lvl lin sf).chance = a.chance := by
  unfold ItemAttribute.scaleStep
  split_ifs <;> exact ⟨rfl, rfl, rfl, rfl, rfl, rfl⟩

theorem expFloor_fields (a : ItemAttribute) (lin : Bool) :
    (a.expFloor lin).name = a.name ∧ (a.expFloor lin).min = a.min
      ∧ (a.expFloor lin).max = a.max ∧ (a.expFloor lin).required = a.required
      ∧ (a.expFloor lin).scaling_factor = a.scaling_factor
      ∧ (a.expFloor lin).chance = a.chance := by
  unfold ItemAttribute.expFloor
  split_ifs <;> exact ⟨rfl, rfl, rfl, rfl, rfl, rfl⟩

theorem seedBounds_fields (a : ItemAttribute) :
    a.seedBounds.name = a.name ∧ a.seedBounds.initial_value = a.initial_value
      ∧ a.seedBounds.required = a.required
      ∧ a.seedBounds.scaling_factor = a.scaling_factor
      ∧ a.seedBounds.chance = a.chance := by
  unfold ItemAttribute.seedBounds
  split_ifs <;> exact ⟨rfl, rfl, rfl, rfl, rfl⟩

theorem generateValue_name (a : ItemAttribute) (lvl : ℤ) (lin : Bool) (sf : ℚ) :
    (a.generateValue lvl lin sf).name = a.name := by
  unfold ItemAttribute.generateValue
  rw [clampStep_fields _ |>.1, scaleStep_fields _ lvl lin sf |>.1,
    expFloor_fields _ lin |>.1, seedBounds_fields a |>.1]

theorem generateValue_initial (a : ItemAttribute) (lvl : ℤ) (lin : Bool) (sf : ℚ) :
    (a.generateValue lvl lin sf).initial_value =
      (if lin = true
        then max ((if a.initial_value = 0 ∧ lin = false then 1 else a.initial_value)
          + (lvl : ℚ) * sf) 0
        else max ((if a.initial_value = 0 ∧ lin = false then 1 else a.initial_value)
          * sf ^ lvl) 0) := by
  have hseed := seedBounds_fields a |>.2.1
  have hfl : (a.seedBounds.expFloor lin).initial_value
      = (if a.initial_value = 0 ∧ lin = false then 1 else a.initial_value) := by
    unfold ItemAttribute.expFloor
    rw [hseed]
    split_ifs <;> first | rfl | exact hseed
  unfold ItemAttribute.generateValue ItemAttribute.scaleStep
  rw [clampStep_initial]
  split_ifs with h h2 <;> simp_all

theorem generateValue_bounds (a : ItemAttribute) (lvl : ℤ) (lin : Bool) (sf : ℚ) :
    ((a.generateValue lvl lin sf).min, (a.generateValue lvl lin sf).max) =
      (if a.min = 0 ∧ a.max = 0 ∧ a.initial_value ≠ 0
        then (a.initial_value, a.initial_value) else (a.min, a.max)) := by
  unfold ItemAttribute.generateValue
  have h2 := clampStep_fields ((a.seedBounds.expFloor lin).scaleStep lvl lin sf)
  have h3 := scaleStep_fields (a.seedBounds.expFloor lin) lvl lin sf
  have h4 := expFloor_fields a.seedBounds lin
  rw [h2.2.1, h2.2.2.1, h3.2.1, h3.2.2.1, h4.2.1, h4.2.2.1]
  unfold ItemAttribute.seedBounds
  split_ifs <;> rfl

/-! ## Claim C2: the attribute scaler -/

/-- C2: `generate_value` seeds `min = max = initial_value` exactly when both
bounds are zero and the initial value is non-zero; a zero initial value in
exponential mode becomes `1.0` (so initial 0, factor 3/2, level 5 yields
`(3/2)^5`); linear mode adds `level * scaling_factor`; exponential mode
multiplies by `scaling_factor ^ level`; a negative result is clamped to
exactly `0`, and the computed value never depends on `max` (no upper
clamp). -/
theorem claim2_generate_value :
    (∀ (a : ItemAttribute) (lvl : ℤ) (lin : Bool) (sf : ℚ),
      (a.min = 0 ∧ a.max = 0 ∧ a.initial_value ≠ 0 →
        (a.generateValue lvl lin sf).min = a.initial_value
          ∧ (a.generateValue lvl lin sf).max = a.initial_value)
      ∧ (¬ (a.min = 0 ∧ a.max = 0 ∧ a.initial_value ≠ 0) →
        (a.generateValue lvl lin sf).min = a.min
          ∧ (a.generateValue lvl lin sf).max = a.max)
      ∧ (lin = true →
        (a.generateValue lvl lin sf).initial_value
          = max (a.initial_value + (lvl : ℚ) * sf) 0)
      ∧ (lin = false → a.initial_value ≠ 0 →
        (a.generateValue lvl lin sf).initial_value
          = max (a.initial_value * sf ^ lvl) 0)
      ∧ (lin = false → a.initial_value = 0 →
        (a.generateValue lvl lin sf).initial_value = max (sf ^ lvl) 0)
      ∧ 0 ≤ (a.generateValue lvl lin sf).initial_value)
    ∧ ((ItemAttribute.new "power" 0 0 0 true).generateValue 5 false (3/2)
        |>.initial_value) = (3/2 : ℚ) ^ (5 : ℤ) := by
  constructor
  · intro a lvl lin sf
    have hb := generateValue_bounds a lvl lin sf
    have hv := generateValue_initial a lvl lin sf
    refine ⟨?_, ?_, ?_, ?_, ?_, ?_⟩
    · intro h
      rw [if_pos h] at hb
      exact ⟨congrArg Prod.fst hb, congrArg Prod.snd hb⟩
    · intro h
      rw [if_neg h] at hb
      exact ⟨congrArg Prod.fst hb, congrArg Prod.snd hb⟩
    · intro hl
      rw [hv, if_pos hl, if_neg (by simp [hl])]
    · intro hl hnz
      rw [hv, if_neg (by simp [hl]), if_neg (by simp [hnz])]
    · intro hl hz
      rw [hv, if_neg (by simp [hl]), if_pos ⟨hz, hl⟩, one_mul]
    · rw [hv]
      split_ifs <;> exact le_max_right _ _
  · have h := generateValue_initial (ItemAttribute.new "power" 0 0 0 true) 5 false (3/2)
    rw [h]
    norm_num [ItemAttribute.new]

/-- Witness for C2 at concrete inputs: linear scaling (initial 5, level 3,
factor 2 gives 11), bounds seeding and absence of an upper clamp (initial 1,
level 5, factor 1 gives value 6 above the seeded max 1), and the negative
clamp (factor -10 gives exactly 0). -/
theorem claim2_generate_value_witness :
    ((ItemAttribute.new "dmg" 5 0 0 true).generateValue 3 true 2).initial_value = 11
    ∧ ((ItemAttribute.new "dmg" 1 0 0 true).generateValue 5 true 1).initial_value = 6
    ∧ ((ItemAttribute.new "dmg" 1 0 0 true).generateValue 5 true 1).max = 1
    ∧ ((ItemAttribute.new "dmg" 5 0 0 true).generateValue 3 true (-10)).initial_value = 0 := by
  have c := claim2_generate_value.1
  have h1 := (c (ItemAttribute.new "dmg" 5 0 0 true) 3 true 2).2.2.1 rfl
  have h2 := (c (ItemAttribute.new "dmg" 1 0 0 true) 5 true 1).2.2.1 rfl
  have h3 := (c (ItemAttribute.new "dmg" 1 0 0 true) 5 true 1).1
    (by norm_num [ItemAttribute.new])
  have h4 := (c (ItemAttribute.new "dmg" 5 0 0 true) 3 true (-10)).2.2.1 rfl
  refine ⟨?_, ?_, ?_, ?_⟩
  · rw [h1]; norm_num [ItemAttribute.new]
  · rw [h2]; norm_num [ItemAttribute.new]
  · rw [h3.2]; norm_num [ItemAttribute.new]
  · rw [h4]; norm_num [ItemAttribute.new]

/-! ## Claim C1: weighted selection -/

/-- C1: for every non-empty name-to-weight mapping with positive total weight
and every draw `d` in `[0, total)`, weighted selection returns (the
fall-through error is unreachable), and it returns exactly the entry of the
lexicographically sorted list at the first position whose cumulative weight
exceeds `d`; the sorted order is lexicographic; the empty mapping yields the
"invalid data" error; a mapping with a single positive-weight entry always
returns that entry. -/
theorem claim1_weighted_select :
    (∀ (w : List (String × Int)) (d : Int),
      w ≠ [] → (w.map Prod.fst).Nodup → 0 < totalWeight w →
      0 ≤ d → d < totalWeight w →
      (weightedRandomSelect w d).isOk = true)
    ∧ (∀ (w : List (String × Int)) (d : Int) (i : Nat),
      w ≠ [] → 0 ≤ d → d < totalWeight w →
      i < (sortedEntries w).length →
      d < cumWeight (sortedEntries w) (i + 1) →
      (∀ j : Nat, j < i → cumWeight (sortedEntries w) (j + 1) ≤ d) →
      weightedRandomSelect w d = .ok (keyAt (sortedEntries w) i))
    ∧ (∀ w : List (String × Int),
      List.Sorted (fun p q => strLeB p.1 q.1 = true) (sortedEntries w))
    ∧ (∀ d : Int, weightedRandomSelect [] d = .err "No items to select from")
    ∧ (∀ (k : String) (wt d : Int), 0 < wt → 0 ≤ d → d < wt →
      weightedRandomSelect [(k, wt)] d = .ok k) := by
  refine ⟨?_, ?_, ?_, ?_, ?_⟩
  · intro w d hne _ hpos h0 h1
    rw [weightedRandomSelect_eq_walk w d hne hpos h0 h1]
    exact selectWalk_isOk _ d h0 (by rw [totalWeight_sortedEntries]; exact h1)
  · intro w d i hne h0 h1 hi hc hf
    have hpos : 0 < totalWeight w := by omega
    rw [weightedRandomSelect_eq_walk w d hne hpos h0 h1]
    exact selectWalk_first _ d i hi hc hf
  · intro w
    exact List.sorted_insertionSort _ w
  · intro d
    rfl
  · intro k wt d hw h0 h1
    have hone : totalWeight [(k, wt)] = wt := by simp [totalWeight]
    have hred := weightedRandomSelect_eq_walk [(k, wt)] d (by simp)
      (by rw [hone]; exact hw) h0 (by rw [hone]; exact h1)
    rw [hred]
    have hsort : sortedEntries [(k, wt)] = [(k, wt)] := rfl
    rw [hsort]
    simp [selectWalk, show d - wt < 0 by omega]

/-- Witness for C1 at concrete inputs: a two-entry mapping returns the sorted
entry selected by the draw, the empty mapping errors, and a singleton
positive-weight mapping returns its entry. -/
theorem claim1_weighted_select_witness :
    weightedRandomSelect [("b", 2), ("a", 1)] 0 = .ok "a"
    ∧ weightedRandomSelect [] 5 = .err "No items to select from"
    ∧ weightedRandomSelect [("x", 5)] 3 = .ok "x" := by
  refine ⟨?_, claim1_weighted_select.2.2.2.1 5, ?_⟩
  · have h := claim1_weighted_select.2.1 [("b", 2), ("a", 1)] 0 0
      (by decide) (by decide) (by decide) (by decide) (by decide)
      (by intro j hj; omega)
    simpa using h
  · exact claim1_weighted_select.2.2.2.2 "x" 5 3 (by decide) (by decide) (by decide)

/-! ## Claim C10: panic on non-positive total weight -/

/-- C10: a non-empty mapping whose weights sum to zero or less makes the
random draw panic on the empty range `[0, 0)` instead of returning the
"invalid data" error; the explicit "No items to select from" error is produced
only for the empty mapping. -/
theorem claim10_select_panics_on_nonpositive_total :
    (∀ (w : List (String × Int)) (seed : Int),
      w ≠ [] → totalWeight w ≤ 0 → weightedRandomSelect w seed = .panic)
    ∧ (∀ (w : List (String × Int)) (seed : Int), w ≠ [] →
      weightedRandomSelect w seed ≠ .err "No items to select from") := by
  constructor
  · intro w seed hne htot
    simp only [weightedRandomSelect, if_neg hne, randRange, sub_zero,
      if_neg (by omega : ¬ (0 : Int) < totalWeight w)]
  · intro w seed hne
    exact weightedRandomSelect_nonempty_ne_errNoItems w seed hne

/-- Witness for C10: the all-zero-weight two-entry mapping panics. -/
theorem claim10_select_panics_witness :
    weightedRandomSelect [("a", 0), ("b", 0)] 7 = .panic :=
  claim10_select_panics_on_nonpositive_total.1 [("a", 0), ("b", 0)] 7
    (by decide) (by decide)

/-! ## Claim C6: attribute accumulation in the catalog -/

theorem attrsAt_setAttribute (g : PraedaGenerator) (t s : String)
    (a : ItemAttribute) :
    (g.setAttribute t s a).attrsAt t s = addOrAccum (g.attrsAt t s) a := by
  unfold PraedaGenerator.setAttribute PraedaGenerator.attrsAt
  simp [lookupA_insertA_self]

theorem addOrAccum_not_found (l : List ItemAttribute) (a : ItemAttribute)
    (h : ∀ x ∈ l, x.name ≠ a.name) : addOrAccum l a = l ++ [a] := by
  induction l with
  | nil => rfl
  | cons x rest ih =>
      have hx : x.name ≠ a.name := h x (List.mem_cons_self _ _)
      simp only [addOrAccum, if_neg hx, List.cons_append, List.cons.injEq, true_and]
      exact ih (fun y hy => h y (List.mem_cons_of_mem _ hy))

theorem addOrAccum_append_found (l : List ItemAttribute) (a b : ItemAttribute)
    (hb : b.name = a.name) (h : ∀ x ∈ l, x.name ≠ a.name) :
    addOrAccum (l ++ [a]) b
      = l ++ [{ a with initial_value := a.initial_value + b.initial_value }] := by
  induction l with
  | nil =>
      simp only [List.nil_append, addOrAccum, if_pos hb.symm]
  | cons x rest ih =>
      have hx : x.name ≠ b.name := by
        rw [hb]
        exact h x (List.mem_cons_self _ _)
      simp only [List.cons_append, addOrAccum, if_neg hx, List.cons.injEq, true_and]
      exact ih (fun y hy => h y (List.mem_cons_of_mem _ hy))

/-- C6: at any exact `(type, subtype)` scope, `set_attribute` with a name not
yet present appends the attribute unchanged, and a second call with the same
name adds its `initial_value` onto the stored attribute (keeping the stored
attribute's other fields) rather than replacing it. -/
theorem claim6_set_attribute_accumulates :
    (∀ (g : PraedaGenerator) (t s : String) (a : ItemAttribute),
      (∀ x ∈ g.attrsAt t s, x.name ≠ a.name) →
      (g.setAttribute t s a).attrsAt t s = g.attrsAt t s ++ [a])
    ∧ (∀ (g : PraedaGenerator) (t s : String) (a b : ItemAttribute),
      b.name = a.name →
      (∀ x ∈ g.attrsAt t s, x.name ≠ a.name) →
      ((g.setAttribute t s a).setAttribute t s b).attrsAt t s
        = g.attrsAt t s
            ++ [{ a with initial_value := a.initial_value + b.initial_value }]) := by
  constructor
  · intro g t s a h
    rw [attrsAt_setAttribute]
    exact addOrAccum_not_found _ _ h
  · intro g t s a b hb h
    rw [attrsAt_setAttribute, attrsAt_setAttribute,
      addOrAccum_not_found _ _ h, addOrAccum_append_found _ _ _ hb h]

/-- Witness for C6: adding "damage" twice at the same scope stores a single
attribute whose initial value is the sum 5 + 3 = 8 and whose other fields come
from the first call; a fresh name is appended unchanged. -/
theorem claim6_set_attribute_witness :
    ((PraedaGenerator.new.setAttribute "weapon" "sword"
        (ItemAttribute.new "damage" 5 1 10 true)).setAttribute "weapon" "sword"
        (ItemAttribute.new "damage" 3 0 0 false)).attrsAt "weapon" "sword"
      = [{ ItemAttribute.new "damage" 5 1 10 true with initial_value := 8 }]
    ∧ (PraedaGenerator.new.setAttribute "weapon" "sword"
        (ItemAttribute.new "damage" 5 1 10 true)).attrsAt "weapon" "sword"
      = [ItemAttribute.new "damage" 5 1 10 true] := by
  constructor
  · have h := claim6_set_attribute_accumulates.2 PraedaGenerator.new "weapon" "sword"
      (ItemAttribute.new "damage" 5 1 10 true) (ItemAttribute.new "damage" 3 0 0 false)
      rfl (by intro x hx; simp [PraedaGenerator.attrsAt, PraedaGenerator.new, lookupA] at hx)
    rw [h]
    norm_num [PraedaGenerator.attrsAt, PraedaGenerator.new, lookupA, ItemAttribute.new]
  · have h := claim6_set_attribute_accumulates.1 PraedaGenerator.new "weapon" "sword"
      (ItemAttribute.new "damage" 5 1 10 true)
      (by intro x hx; simp [PraedaGenerator.attrsAt, PraedaGenerator.new, lookupA] at hx)
    rw [h]
    norm_num [PraedaGenerator.attrsAt, PraedaGenerator.new, lookupA]

/-! ## Claim C7: wildcard lookups (corrected) -/

/-- Counterexample to C7 as stated: on the empty catalog, `has_attribute`
called with all-empty strings returns `false`, although the claim says any
empty-string argument makes every lookup return `true`. -/
theorem claim7_wildcard_counterexample :
    PraedaGenerator.new.hasAttribute "" "" "" = false := by
  rfl

/-- C7 (amended): `has_quality`, `has_item_type` and `has_item_subtype` treat
an empty-string argument as wildcard-true and otherwise report existence of
the named entry; `has_attribute` passes its type/subtype existence checks
whenever the corresponding argument is empty (wildcard) and fails when a
non-empty type/subtype is not registered — even if an attribute list is
stored at the key — and always matches the attribute name literally at the
exact `(type, subtype)` key, so an empty attribute name is matched literally,
not as a wildcard. -/
theorem claim7_wildcard_lookups :
    (∀ g : PraedaGenerator, g.hasQuality "" = true)
    ∧ (∀ (g : PraedaGenerator) (q : String), q ≠ "" →
        (g.hasQuality q = true ↔ ∃ w, (q, w) ∈ g.quality_data))
    ∧ (∀ g : PraedaGenerator, g.hasItemType "" = true)
    ∧ (∀ (g : PraedaGenerator) (t : String), t ≠ "" →
        (g.hasItemType t = true ↔ ∃ it ∈ g.item_types, it.item_type = t))
    ∧ (∀ (g : PraedaGenerator) (t s : String), t = "" ∨ s = "" →
        g.hasItemSubtype t s = true)
    ∧ (∀ (g : PraedaGenerator) (t s : String), t ≠ "" → s ≠ "" →
        (g.hasItemSubtype t s = true ↔
          ∃ it, g.getItemType t = some it ∧ ∃ w, (s, w) ∈ it.subtypes))
    ∧ (∀ (g : PraedaGenerator) (t s a : String),
        (g.hasAttribute t s a = true ↔
          g.hasItemType t = true ∧ g.hasItemSubtype t s = true
            ∧ ∃ x ∈ (lookupA g.item_attributes (t, s)).getD [], x.name = a)) := by
  refine ⟨?_, ?_, ?_, ?_, ?_, ?_, ?_⟩
  · intro g
    rfl
  · intro g q hq
    rw [PraedaGenerator.hasQuality, if_neg hq]
    exact lookupA_isSome_iff g.quality_data q
  · intro g
    rfl
  · intro g t ht
    rw [PraedaGenerator.hasItemType, if_neg ht]
    simp
  · intro g t s h
    unfold PraedaGenerator.hasItemSubtype
    rw [if_pos h]
  · intro g t s ht hs
    unfold PraedaGenerator.hasItemSubtype
    rw [if_neg (by simp [ht, hs])]
    cases hgt : g.getItemType t with
    | none => simp
    | some it => simp [lookupA_isSome_iff]
  · intro g t s a
    unfold PraedaGenerator.hasAttribute
    by_cases hty : g.hasItemType t = true
    · by_cases hsub : g.hasItemSubtype t s = true
      · rw [if_neg (by simp [hty, hsub])]
        cases hl : lookupA g.item_attributes (t, s) with
        | none => simp [hty, hsub]
        | some attrs => simp [hty, hsub, List.any_eq_true]
      · rw [if_pos (by simp [hsub])]
        simp [hsub]
    · rw [if_pos (by simp [hty])]
      simp [hty]

/-- Witness for C7 (amended) at concrete inputs: a non-empty quality name is
reported present; a registered subtype is reported present with non-empty
arguments; `has_attribute` finds a configured attribute by its literal name at
a registered scope and under a wildcard type; and with the item type not
registered it returns `false` although the attribute list is stored at the
key. -/
theorem claim7_wildcard_lookups_witness :
    ({ PraedaGenerator.new with quality_data := [("rare", 3)] }.hasQuality "rare" = true)
    ∧ subGen.hasItemSubtype "weapon" "sword" = true
    ∧ subGen.hasAttribute "weapon" "sword" "damage" = true
    ∧ ({ PraedaGenerator.new with item_attributes :=
          [(("", "sword"), [ItemAttribute.new "damage" 5 1 10 true])]
        }.hasAttribute "" "sword" "damage" = true)
    ∧ gateGen.hasAttribute "weapon" "sword" "damage" = false := by
  refine ⟨?_, ?_, ?_, ?_, ?_⟩
  · exact (claim7_wildcard_lookups.2.1 _ "rare" (by decide)).mpr
      ⟨3, by simp⟩
  · exact (claim7_wildcard_lookups.2.2.2.2.2.1 subGen "weapon" "sword"
      (by decide) (by decide)).mpr
      ⟨swordType, rfl, ⟨2, by simp [swordType]⟩⟩
  · exact (claim7_wildcard_lookups.2.2.2.2.2.2 subGen "weapon" "sword" "damage").mpr
      ⟨rfl, rfl,
        ⟨ItemAttribute.new "damage" 5 1 10 true,
          by simp [subGen, lookupA, PraedaGenerator.new], rfl⟩⟩
  · exact (claim7_wildcard_lookups.2.2.2.2.2.2 _ "" "sword" "damage").mpr
      ⟨rfl, rfl,
        ⟨ItemAttribute.new "damage" 5 1 10 true, by simp [lookupA], rfl⟩⟩
  · have h := claim7_wildcard_lookups.2.2.2.2.2.2 gateGen "weapon" "sword" "damage"
    cases hb : gateGen.hasAttribute "weapon" "sword" "damage" with
    | false => rfl
    | true =>
        have h2 := h.mp hb
        have hty : gateGen.hasItemType "weapon" = false := rfl
        rw [h2.1] at hty
        exact absurd hty (by simp)

/-! ## Claim C8: generation does not mutate the catalog -/

/-- C8: a `generate_loot` call, successful or failing, leaves every catalog
field of the generator unchanged (quality map, item-type list, item-name
lists, attribute maps, affix maps, and both metadata maps); only the stored
loot list can change. -/
theorem claim8_generation_preserves_catalog
    (g : PraedaGenerator) (o : GeneratorOptions) (ov : GeneratorOverrides)
    (key : String) (rands : Nat → Rand) :
    ((generateLoot g o ov key rands).2.quality_data = g.quality_data)
    ∧ ((generateLoot g o ov key rands).2.item_types = g.item_types)
    ∧ ((generateLoot g o ov key rands).2.item_list = g.item_list)
    ∧ ((generateLoot g o ov key rands).2.item_attributes = g.item_attributes)
    ∧ ((generateLoot g o ov key rands).2.item_affixes = g.item_affixes)
    ∧ ((generateLoot g o ov key rands).2.subtype_metadata = g.subtype_metadata)
    ∧ ((generateLoot g o ov key rands).2.item_name_metadata = g.item_name_metadata) := by
  unfold generateLoot
  cases genItems g o ov rands o.number_of_items 0 <;> simp

/-! ## Claim C3: `_requirement` attributes equal the generated level -/

theorem ReqInv_insertA {lvl : Int} {m : List (String × ItemAttribute)}
    (hm : ReqInv lvl m) (k : String) (v : ItemAttribute) (hk : k = v.name)
    (hv : strContainsSub v.name "_requirement" = true → v.initial_value = (lvl : ℚ)) :
    ReqInv lvl (insertA m k v) := by
  intro p hp
  rcases mem_insertA m k v p hp with h | h
  · exact hm p h
  · subst h
    exact ⟨hk, hv⟩

theorem ReqInv_applyRequired {lvl : Int} (o : GeneratorOptions)
    (attrs : List ItemAttribute) :
    ∀ acc : List (String × ItemAttribute) × List ItemAttribute,
      ReqInv lvl acc.1 → ReqInv lvl (applyRequired lvl o attrs acc).1 := by
  induction attrs with
  | nil => intro acc h; exact h
  | cons attr rest ih =>
      intro acc h
      rw [applyRequired, List.foldl_cons]
      by_cases hr : attr.required = true
      · rw [if_pos hr]
        apply ih
        by_cases hc : strContainsSub attr.name "_requirement" = true
        · rw [if_pos hc]
          exact ReqInv_insertA h _ _ (setInitialValue_name attr _).symm
            (fun _ => setInitialValue_initial attr _)
        · rw [if_neg hc]
          refine ReqInv_insertA h _ _ (generateValue_name attr lvl _ _).symm ?_
          rw [generateValue_name]
          intro hcontra
          exact absurd hcontra hc
      · rw [if_neg hr]
        exact ih _ h

theorem ReqInv_requiredStage {lvl : Int} (g : PraedaGenerator) (t s : String)
    (o : GeneratorOptions) (attrs0 : List (String × ItemAttribute))
    (h0 : ReqInv lvl attrs0) :
    ReqInv lvl (requiredStage g t s lvl o attrs0).1 := by
  unfold requiredStage
  generalize scopeKeys t s = keys
  have hgen : ∀ (keys : List (String × String))
      (acc : List (String × ItemAttribute) × List ItemAttribute),
      ReqInv lvl acc.1 →
      ReqInv lvl (keys.foldl
        (fun acc key =>
          match lookupA g.item_attributes key with
          | some attrs => applyRequired lvl o attrs acc
          | none => acc) acc).1 := by
    intro keys
    induction keys with
    | nil => intro acc h; exact h
    | cons key rest ih =>
        intro acc h
        rw [List.foldl_cons]
        cases lookupA g.item_attributes key with
        | none => exact ih _ h
        | some attrs => exact ih _ (ReqInv_applyRequired o attrs acc h)
  exact hgen keys (attrs0, []) h0

theorem ReqInv_optionalStep {lvl : Int} (o : GeneratorOptions)
    (attr : ItemAttribute) (m : List (String × ItemAttribute))
    (hm : ReqInv lvl m) : ReqInv lvl (optionalStep lvl o attr m) := by
  cases hl : lookupA m attr.name with
  | some existing =>
      have hex := hm _ (lookupA_mem m attr.name existing hl)
      have hname : existing.name = attr.name := hex.1.symm
      simp only [optionalStep, hl]
      by_cases hc : strContainsSub existing.name "_requirement" = true
      · rw [if_pos hc]
        refine ReqInv_insertA hm _ _ ?_ ?_
        · rw [setInitialValue_name]
          exact hname.symm
        · intro _
          exact setInitialValue_initial _ _
      · rw [if_neg hc]
        refine ReqInv_insertA hm _ _ hname.symm ?_
        intro hcontra
        exact absurd hcontra hc
  | none =>
      simp only [optionalStep, hl]
      by_cases hc0 : strContainsSub attr.name "_requirement" = false
      · rw [if_pos hc0]
        by_cases hc : strContainsSub (attr.generateValue lvl o.linear o.scaling_factor).name
            "_requirement" = true
        · rw [if_pos hc]
          refine ReqInv_insertA hm _ _ ?_ (fun _ => setInitialValue_initial _ _)
          rw [setInitialValue_name, generateValue_name]
        · rw [if_neg hc]
          refine ReqInv_insertA hm _ _ (generateValue_name _ _ _ _).symm ?_
          intro hcontra
          exact absurd hcontra hc
      · rw [if_neg hc0]
        have hc1 : strContainsSub attr.name "_requirement" = true := by
          revert hc0
          cases strContainsSub attr.name "_requirement" <;> simp
        rw [if_pos hc1]
        refine ReqInv_insertA hm _ _ (setInitialValue_name _ _).symm ?_
        intro _
        exact setInitialValue_initial _ _

theorem ReqInv_optionalStage {lvl : Int} (o : GeneratorOptions)
    (rolls : Nat → Bool) (pool : List ItemAttribute)
    (m : List (String × ItemAttribute)) (hm : ReqInv lvl m) :
    ReqInv lvl (optionalStage lvl o rolls pool m) := by
  unfold optionalStage
  generalize pool.enum = l
  induction l generalizing m with
  | nil => exact hm
  | cons p rest ih =>
      rw [List.foldl_cons]
      by_cases hr : rolls p.1 = true
      · rw [if_pos hr]
        exact ih _ (ReqInv_optionalStep o p.2 m hm)
      · rw [if_neg hr]
        exact ih _ hm

theorem ReqInv_affixStep {lvl : Int} (attr : ItemAttribute)
    (m : List (String × ItemAttribute)) (hm : ReqInv lvl m) :
    ReqInv lvl (affixStep lvl attr m) := by
  cases hl : lookupA m attr.name with
  | some existing =>
      have hex := hm _ (lookupA_mem m attr.name existing hl)
      have hname : existing.name = attr.name := hex.1.symm
      simp only [affixStep, hl]
      by_cases hc : strContainsSub existing.name "_requirement" = true
      · rw [if_pos hc]
        refine ReqInv_insertA hm _ _ ?_ (fun _ => setInitialValue_initial _ _)
        rw [setInitialValue_name]
        exact hname.symm
      · rw [if_neg hc]
        refine ReqInv_insertA hm _ _ hname.symm ?_
        intro hcontra
        exact absurd hcontra hc
  | none =>
      simp only [affixStep, hl]
      by_cases hc : strContainsSub attr.name "_requirement" = true
      · rw [if_pos hc]
        refine ReqInv_insertA hm _ _ (setInitialValue_name _ _).symm ?_
        intro _
        exact setInitialValue_initial _ _
      · rw [if_neg hc]
        refine ReqInv_insertA hm _ _ rfl ?_
        intro hcontra
        exact absurd hcontra hc

theorem ReqInv_affixStage (lvl : Int) (attrs : List ItemAttribute)
    (m : List (String × ItemAttribute)) (hm : ReqInv lvl m) :
    ReqInv lvl (affixStage lvl attrs m) := by
  unfold affixStage
  induction attrs generalizing m with
  | nil => exact hm
  | cons a rest ih =>
      rw [List.foldl_cons]
      exact ih _ (ReqInv_affixStep a m hm)

theorem ReqInv_levelAttr (lvl : Int) :
    ReqInv lvl (insertA ([] : List (String × ItemAttribute)) "level"
      (ItemAttribute.new "level" (lvl : ℚ) 0 0 false)) := by
  intro p hp
  simp only [insertA, List.mem_singleton] at hp
  subst hp
  refine ⟨rfl, ?_⟩
  intro hcontra
  have hfalse : strContainsSub "level" "_requirement" = true := hcontra
  exact absurd hfalse (by decide)

/-- C3: for an item entering `calculate_attributes` with no attributes (as
every freshly generated item does), every `_requirement`-named attribute
equals the generated level both immediately after the required-attribute pass
and on the final item, after the optional-attribute, prefix, and suffix merge
steps, whether it was adopted fresh or summed with an existing value. -/
theorem claim3_requirement_equals_level
    (g : PraedaGenerator) (item : Item) (o : GeneratorOptions) (seed : Int)
    (rolls : Nat → Bool) (lvl : Int) (out : Item)
    (hempty : item.attributes = [])
    (hlvl : calcLevel o seed = .ok lvl)
    (hcalc : calculateAttributes g item o seed rolls = .ok out) :
    (∀ p ∈ (requiredStage g item.item_type item.subtype lvl o
        (insertA item.attributes "level"
          (ItemAttribute.new "level" (lvl : ℚ) 0 0 false))).1,
      strContainsSub p.2.name "_requirement" = true →
        p.2.initial_value = (lvl : ℚ))
    ∧ (∀ p ∈ out.attributes,
      strContainsSub p.2.name "_requirement" = true →
        p.2.initial_value = (lvl : ℚ)) := by
  have hm0 : ReqInv lvl (insertA item.attributes "level"
      (ItemAttribute.new "level" (lvl : ℚ) 0 0 false)) := by
    rw [hempty]
    exact ReqInv_levelAttr lvl
  have h1 := ReqInv_requiredStage g item.item_type item.subtype o _ hm0
  constructor
  · intro p hp
    exact (h1 p hp).2
  · have hout : out.attributes =
        affixStage lvl item.suf.attributes
          (affixStage lvl item.pre.attributes
            (optionalStage lvl o rolls
              (requiredStage g item.item_type item.subtype lvl o
                (insertA item.attributes "level"
                  (ItemAttribute.new "level" (lvl : ℚ) 0 0 false))).2
              (requiredStage g item.item_type item.subtype lvl o
                (insertA item.attributes "level"
                  (ItemAttribute.new "level" (lvl : ℚ) 0 0 false))).1)) := by
      unfold calculateAttributes at hcalc
      rw [hlvl] at hcalc
      simp only [GenResult.ok.injEq] at hcalc
      rw [← hcalc]
    have h2 := ReqInv_optionalStage o rolls
      (requiredStage g item.item_type item.subtype lvl o
        (insertA item.attributes "level"
          (ItemAttribute.new "level" (lvl : ℚ) 0 0 false))).2 _ h1
    have h3 := ReqInv_affixStage lvl item.pre.attributes _ h2
    have h4 := ReqInv_affixStage lvl item.suf.attributes _ h3
    intro p hp
    rw [hout] at hp
    exact (h4 p hp).2

/-- Witness for C3: on a concrete catalog with a required "level_requirement"
attribute, the generated item carries it with value equal to the generated
level 7. -/
theorem claim3_requirement_equals_level_witness :
    ({ name := "level_requirement", initial_value := 7, min := 7, max := 7,
       required := true, scaling_factor := 1, chance := 0 } : ItemAttribute).initial_value
      = ((7 : ℤ) : ℚ) := by
  have hlvl : calcLevel levelOptions 0 = .ok 7 := by
    norm_num [calcLevel, truncToInt, randRangeIncl, levelOptions]
  have hcalc : (calculateAttributes reqGen blankItem levelOptions 0 fun _ => true)
      = .ok reqOut := by
    have hc1 : strContainsSub "level_requirement" "_requirement" = true := by decide
    have hc0 : strContainsSub "level" "_requirement" = false := by decide
    have hne : ¬ ("level" = "level_requirement") := by decide
    norm_num [calculateAttributes, calcLevel, truncToInt, randRangeIncl, reqGen,
      blankItem, levelOptions, reqOut, requiredStage, applyRequired, optionalStage,
      optionalStep, affixStage, affixStep, insertA, lookupA, scopeKeys,
      PraedaGenerator.new, ItemAttribute.new, ItemAttribute.setInitialValue,
      ItemAttribute.generateValue, ItemAttribute.seedBounds, ItemAttribute.expFloor,
      ItemAttribute.scaleStep, ItemAttribute.clampStep, Affix.empty, hc1, hc0, hne,
      List.foldl, List.enum]
  have h := claim3_requirement_equals_level reqGen blankItem levelOptions 0
    (fun _ => true) 7 reqOut rfl hlvl hcalc
  exact h.2 ("level_requirement",
    { name := "level_requirement", initial_value := 7, min := 7, max := 7,
      required := true, scaling_factor := 1, chance := 0 })
    (by rw [show reqOut.attributes =
        [("level",
          { name := "level", initial_value := 7, min := 0, max := 0,
            required := false, scaling_factor := 1, chance := 0 }),
         ("level_requirement",
          { name := "level_requirement", initial_value := 7, min := 7, max := 7,
            required := true, scaling_factor := 1, chance := 0 })] from rfl]
        simp)
    (by decide)

/-! ## Claim C9: item level drawing and storage (corrected) -/

/-- Counterexample to C9 as stated: with `base_level = 10.5` and
`level_variance = 0.3` the level draw is the truncated range `[10, 10]`, so
the generated level is always 10, which does not lie in the claimed closed
range `[10.2, 10.8]`. -/
theorem claim9_level_range_counterexample :
    calcLevel fracOptions 0 = .ok 10
    ∧ ¬ (fracOptions.base_level - fracOptions.level_variance ≤ ((10 : ℤ) : ℚ)) := by
  constructor
  · norm_num [calcLevel, truncToInt, randRangeIncl, fracOptions]
  · norm_num [fracOptions]

/-- C9 (amended): the generated level is the inclusive-range draw between the
i32 truncations of `base_level - level_variance` and
`base_level + level_variance` (which equal the claimed real bounds whenever
those are integral), and it is stored on the item as a non-required "level"
attribute with `min = max = 0` whose value is exactly the drawn level, not run
through the scaler. -/
theorem claim9_level_draw_and_storage :
    (∀ (o : GeneratorOptions) (seed lvl : Int),
      calcLevel o seed = .ok lvl →
      truncToInt (o.base_level - o.level_variance) ≤ lvl
        ∧ lvl ≤ truncToInt (o.base_level + o.level_variance))
    ∧ (∀ (attrs : List (String × ItemAttribute)) (lvl : Int),
      lookupA (insertA attrs "level"
          (ItemAttribute.new "level" (lvl : ℚ) 0 0 false)) "level"
        = some { name := "level", initial_value := (lvl : ℚ), min := 0, max := 0,
                 required := false, scaling_factor := 1, chance := 0 }) := by
  constructor
  · intro o seed lvl h
    unfold calcLevel randRangeIncl at h
    by_cases hle : truncToInt (o.base_level - o.level_variance)
        ≤ truncToInt (o.base_level + o.level_variance)
    · rw [if_pos hle] at h
      simp only [GenResult.ok.injEq] at h
      have hpos : (0 : ℤ) < truncToInt (o.base_level + o.level_variance)
          - truncToInt (o.base_level - o.level_variance) + 1 := by omega
      have h0 := Int.emod_nonneg seed (by omega :
        truncToInt (o.base_level + o.level_variance)
          - truncToInt (o.base_level - o.level_variance) + 1 ≠ 0)
      have h1 := Int.emod_lt_of_pos seed hpos
      omega
    · rw [if_neg hle] at h
      exact absurd h (by simp)
  · intro attrs lvl
    rw [lookupA_insertA_self]
    rfl

/-- Witness for C9 (amended): with base level 10 and variance 2 the draw from
seed 5 gives level 8, inside the truncated bounds, and the stored "level"
attribute is non-required with zero bounds and value exactly 8. -/
theorem claim9_level_draw_witness :
    (truncToInt ((10 : ℚ) - 2) ≤ 8 ∧ (8 : ℤ) ≤ truncToInt ((10 : ℚ) + 2))
    ∧ lookupA (insertA ([] : List (String × ItemAttribute)) "level"
        (ItemAttribute.new "level" ((8 : ℤ) : ℚ) 0 0 false)) "level"
      = some { name := "level", initial_value := ((8 : ℤ) : ℚ), min := 0, max := 0,
               required := false, scaling_factor := 1, chance := 0 } := by
  constructor
  · have h := claim9_level_draw_and_storage.1 rangeOptions 5 8
      (by norm_num [calcLevel, truncToInt, randRangeIncl, rangeOptions])
    simpa [rangeOptions] using h
  · exact claim9_level_draw_and_storage.2 [] 8

/-! ## Claims C4 and C5: the generation path -/

theorem randRangeIncl_ne_err (lo hi seed : Int) (e : String) :
    randRangeIncl lo hi seed ≠ .err e := by
  unfold randRangeIncl
  split_ifs <;> simp

theorem calcLevel_ne_err (o : GeneratorOptions) (seed : Int) (e : String) :
    calcLevel o seed ≠ .err e := by
  unfold calcLevel
  exact randRangeIncl_ne_err _ _ _ _

theorem calculateAttributes_preserves (g : PraedaGenerator) (item : Item)
    (o : GeneratorOptions) (seed : Int) (rolls : Nat → Bool) (out : Item)
    (h : calculateAttributes g item o seed rolls = .ok out) :
    out.quality = item.quality ∧ out.item_type = item.item_type
      ∧ out.subtype = item.subtype := by
  unfold calculateAttributes at h
  cases hc : calcLevel o seed with
  | ok lvl =>
      rw [hc] at h
      simp only [GenResult.ok.injEq] at h
      rw [← h]
      exact ⟨rfl, rfl, rfl⟩
  | err e => rw [hc] at h; simp at h
  | panic => rw [hc] at h; simp at h

theorem calculateAttributes_ne_err (g : PraedaGenerator) (item : Item)
    (o : GeneratorOptions) (seed : Int) (rolls : Nat → Bool) (e : String) :
    calculateAttributes g item o seed rolls ≠ .err e := by
  unfold calculateAttributes
  intro h
  cases hc : calcLevel o seed with
  | ok lvl => rw [hc] at h; simp at h
  | err e2 => exact calcLevel_ne_err o seed e2 hc
  | panic => rw [hc] at h; simp at h

theorem attachMeta_preserves (g : PraedaGenerator) (t s : String) (it : Item) :
    (attachMeta g t s it).quality = it.quality
      ∧ (attachMeta g t s it).item_type = it.item_type
      ∧ (attachMeta g t s it).subtype = it.subtype := by
  unfold attachMeta
  cases lookupA g.subtype_metadata (t, s) <;>
    · dsimp only
      split <;> exact ⟨rfl, rfl, rfl⟩

theorem generateItem_ok_overrides (g : PraedaGenerator) (o : GeneratorOptions)
    (ov : GeneratorOverrides) (r : Rand) (it : Item)
    (h : generateItem g o ov r = .ok it) :
    (ov.quality_override ≠ "" → it.quality = ov.quality_override)
      ∧ (ov.type_override ≠ "" → it.item_type = ov.type_override)
      ∧ (ov.subtype_override ≠ "" → it.subtype = ov.subtype_override) := by
  unfold generateItem at h
  split at h
  · exact absurd h (by simp)
  · exact absurd h (by simp)
  · rename_i q hq
    split at h
    · exact absurd h (by simp)
    · exact absurd h (by simp)
    · rename_i t ht
      split at h
      · exact absurd h (by simp)
      · exact absurd h (by simp)
      · rename_i s hs
        split at h
        · exact absurd h (by simp)
        · exact absurd h (by simp)
        · rename_i itm hca
          simp only [GenResult.ok.injEq] at h
          subst h
          have hpres := calculateAttributes_preserves _ _ _ _ _ _ hca
          have hmeta := attachMeta_preserves g t s itm
          refine ⟨?_, ?_, ?_⟩
          · intro hne
            rw [hmeta.1, hpres.1]
            unfold selectQuality at hq
            rw [if_pos hne] at hq
            simp only [GenResult.ok.injEq] at hq
            exact hq.symm
          · intro hne
            rw [hmeta.2.1, hpres.2.1]
            unfold selectItemType at ht
            rw [if_pos hne] at ht
            simp only [GenResult.ok.injEq] at ht
            exact ht.symm
          · intro hne
            rw [hmeta.2.2, hpres.2.2]
            unfold selectSubtype at hs
            rw [if_pos hne] at hs
            simp only [GenResult.ok.injEq] at hs
            exact hs.symm

theorem genItems_ok_forall (g : PraedaGenerator) (o : GeneratorOptions)
    (ov : GeneratorOverrides) (rands : Nat → Rand) (P : Item → Prop)
    (hgen : ∀ (r : Rand) (it : Item), generateItem g o ov r = .ok it → P it) :
    ∀ (n i : Nat) (items : List Item),
      genItems g o ov rands n i = .ok items → ∀ it ∈ items, P it := by
  intro n
  induction n with
  | zero =>
      intro i items h it hit
      unfold genItems at h
      simp only [GenResult.ok.injEq] at h
      subst h
      simp at hit
  | succ k ih =>
      intro i items h it hit
      unfold genItems at h
      split at h
      · rename_i a ha
        split at h
        · rename_i rest hrest
          simp only [GenResult.ok.injEq] at h
          subst h
          rcases List.mem_cons.mp hit with h1 | h1
          · subst h1
            exact hgen _ _ ha
          · exact ih (i + 1) rest hrest it h1
        · exact absurd h (by simp)
        · exact absurd h (by simp)
      · exact absurd h (by simp)
      · exact absurd h (by simp)

/-- C4: whenever a quality, type, or subtype override is a non-empty string,
every item in a successfully returned batch carries exactly that quality,
type, or subtype respectively, regardless of the configured weights. -/
theorem claim4_overrides_absolute (g : PraedaGenerator) (o : GeneratorOptions)
    (ov : GeneratorOverrides) (key : String) (rands : Nat → Rand)
    (items : List Item) (gAfter : PraedaGenerator)
    (h : generateLoot g o ov key rands = (.ok items, gAfter)) :
    ∀ it ∈ items,
      (ov.quality_override ≠ "" → it.quality = ov.quality_override)
      ∧ (ov.type_override ≠ "" → it.item_type = ov.type_override)
      ∧ (ov.subtype_override ≠ "" → it.subtype = ov.subtype_override) := by
  unfold generateLoot at h
  cases hg : genItems g o ov rands o.number_of_items 0 with
  | ok its =>
      rw [hg] at h
      simp only [Prod.mk.injEq, GenResult.ok.injEq] at h
      rw [← h.1]
      exact genItems_ok_forall g o ov rands _
        (fun r it hit => generateItem_ok_overrides g o ov r it hit)
        o.number_of_items 0 its hg
  | err e => rw [hg] at h; simp at h
  | panic => rw [hg] at h; simp at h

/-- Witness for C4: with all three overrides forced on an otherwise empty
catalog, the generated item has exactly the forced quality, type and
subtype. -/
theorem claim4_overrides_witness :
    swordItem.quality = "epic" ∧ swordItem.item_type = "weapon"
      ∧ swordItem.subtype = "sword" := by
  have hrun : generateLoot PraedaGenerator.new levelOptions forceOverrides "k"
      (fun _ => rand0) = (.ok [swordItem],
        { PraedaGenerator.new with loot_list := [("k", [swordItem])] }) := by
    have h1 : ¬ (("epic" : String) = "") := by decide
    have h2 : ¬ (("weapon" : String) = "") := by decide
    have h3 : ¬ (("sword" : String) = "") := by decide
    norm_num [h1, h2, h3, generateLoot, genItems, generateItem, selectQuality, selectItemType,
      selectSubtype, pickName, pickAffixes, attachMeta, calculateAttributes,
      calcLevel, truncToInt, randRangeIncl, requiredStage, applyRequired,
      optionalStage, optionalStep, affixStage, affixStep, insertA, lookupA,
      scopeKeys, PraedaGenerator.new, ItemAttribute.new, levelOptions,
      forceOverrides, swordItem, rand0, Affix.empty, List.foldl, List.enum]
  have h := claim4_overrides_absolute PraedaGenerator.new levelOptions
    forceOverrides "k" (fun _ => rand0) [swordItem] _ hrun swordItem
    (List.mem_singleton.mpr rfl)
  exact ⟨h.1 (by decide), h.2.1 (by decide), h.2.2 (by decide)⟩

theorem selectQuality_err (g : PraedaGenerator) (ov : GeneratorOverrides)
    (seed : Int) (e : String) (h : selectQuality g ov seed = .err e) :
    weightedRandomSelect g.quality_data seed = .err e := by
  unfold selectQuality at h
  split_ifs at h with hov
  exact h

theorem selectItemType_err (g : PraedaGenerator) (ov : GeneratorOverrides)
    (seed : Int) (e : String) (h : selectItemType g ov seed = .err e) :
    weightedRandomSelect (typeWeights g) seed = .err e := by
  unfold selectItemType at h
  split_ifs at h with hov
  exact h

theorem selectSubtype_err (g : PraedaGenerator) (ov : GeneratorOverrides)
    (t : String) (seed : Int) (e : String)
    (h : selectSubtype g ov t seed = .err e) :
    ∃ w, weightedRandomSelect w seed = .err e := by
  unfold selectSubtype at h
  split_ifs at h with hov
  cases hgt : g.getItemType t with
  | some itObj =>
      rw [hgt] at h
      exact ⟨itObj.subtypes, h⟩
  | none =>
      rw [hgt] at h
      exact absurd h (by simp)

theorem generateItem_err_msgs (g : PraedaGenerator) (o : GeneratorOptions)
    (ov : GeneratorOverrides) (r : Rand) (msg : String)
    (h : generateItem g o ov r = .err msg) :
    msg = "No items to select from" ∨ msg = "Failed to select from weights" := by
  unfold generateItem at h
  split at h
  · rename_i e he
    simp only [GenResult.err.injEq] at h
    subst h
    exact weightedRandomSelect_err_msg _ _ _ (selectQuality_err _ _ _ _ he)
  · exact absurd h (by simp)
  · rename_i q hq
    split at h
    · rename_i e he
      simp only [GenResult.err.injEq] at h
      subst h
      exact weightedRandomSelect_err_msg _ _ _ (selectItemType_err _ _ _ _ he)
    · exact absurd h (by simp)
    · rename_i t ht
      split at h
      · rename_i e he
        simp only [GenResult.err.injEq] at h
        subst h
        obtain ⟨w, hw⟩ := selectSubtype_err _ _ _ _ _ he
        exact weightedRandomSelect_err_msg _ _ _ hw
      · exact absurd h (by simp)
      · rename_i s hs
        split at h
        · rename_i e he
          exact absurd he (calculateAttributes_ne_err _ _ _ _ _ _)
        · exact absurd h (by simp)
        · exact absurd h (by simp)

theorem generateItem_err_empty_quality (g : PraedaGenerator)
    (o : GeneratorOptions) (ov : GeneratorOverrides) (r : Rand)
    (hov : ov.quality_override = "") (hq : g.quality_data = []) :
    generateItem g o ov r = .err "No items to select from" := by
  unfold generateItem
  rw [show selectQuality g ov r.qualitySeed = .err "No items to select from" by
    unfold selectQuality
    rw [if_neg (by simp [hov]), hq]
    rfl]

theorem generateItem_err_empty_types (g : PraedaGenerator)
    (o : GeneratorOptions) (ov : GeneratorOverrides) (r : Rand)
    (hovq : ov.quality_override = "") (hovt : ov.type_override = "")
    (ht : g.item_types = []) (hqual : 0 < totalWeight g.quality_data) :
    generateItem g o ov r = .err "No items to select from" := by
  have hne : g.quality_data ≠ [] := by
    intro hc
    rw [hc] at hqual
    simp [totalWeight] at hqual
  obtain ⟨q, hq⟩ := weightedRandomSelect_ok_of_pos g.quality_data r.qualitySeed hne hqual
  unfold generateItem
  rw [show selectQuality g ov r.qualitySeed = .ok q by
    unfold selectQuality
    rw [if_neg (by simp [hovq])]
    exact hq]
  have htw : typeWeights g = [] := by
    unfold typeWeights
    rw [ht]
    rfl
  rw [show selectItemType g ov r.typeSeed = .err "No items to select from" by
    unfold selectItemType
    rw [if_neg (by simp [hovt]), htw]
    rfl]

theorem genItems_err_head (g : PraedaGenerator) (o : GeneratorOptions)
    (ov : GeneratorOverrides) (rands : Nat → Rand) (n : Nat) (m : String)
    (hn : 1 ≤ n) (h : generateItem g o ov (rands 0) = .err m) :
    genItems g o ov rands n 0 = .err m := by
  obtain ⟨k, rfl⟩ : ∃ k, n = k + 1 := ⟨n - 1, by omega⟩
  unfold genItems
  rw [h]

/-- C5 (amended): with at least one item requested and empty quality/type
overrides, an empty quality map — or an empty item-type list when the quality
draw itself can succeed — makes `generate_loot` return the "No items to select
from" error with the generator (including its stored loot list) unchanged; any
error return leaves the generator unchanged (no partial results); and the only
error messages the generation path can return are the selector's two
messages. -/
theorem claim5_selector_failure :
    (∀ (g : PraedaGenerator) (o : GeneratorOptions) (ov : GeneratorOverrides)
        (key : String) (rands : Nat → Rand),
      1 ≤ o.number_of_items → ov.quality_override = "" → ov.type_override = "" →
      (g.quality_data = [] ∨ (g.item_types = [] ∧ 0 < totalWeight g.quality_data)) →
      generateLoot g o ov key rands = (.err "No items to select from", g))
    ∧ (∀ (g : PraedaGenerator) (o : GeneratorOptions) (ov : GeneratorOverrides)
        (key : String) (rands : Nat → Rand) (msg : String),
      (generateLoot g o ov key rands).1 = .err msg →
      (generateLoot g o ov key rands).2 = g)
    ∧ (∀ (g : PraedaGenerator) (o : GeneratorOptions) (ov : GeneratorOverrides)
        (r : Rand) (msg : String),
      generateItem g o ov r = .err msg →
      msg = "No items to select from" ∨ msg = "Failed to select from weights") := by
  refine ⟨?_, ?_, ?_⟩
  · intro g o ov key rands hn hovq hovt hcfg
    have hitem : generateItem g o ov (rands 0) = .err "No items to select from" := by
      rcases hcfg with hq | ⟨ht, hqual⟩
      · exact generateItem_err_empty_quality g o ov (rands 0) hovq hq
      · exact generateItem_err_empty_types g o ov (rands 0) hovq hovt ht hqual
    have hg := genItems_err_head g o ov rands o.number_of_items _ hn hitem
    unfold generateLoot
    rw [hg]
  · intro g o ov key rands msg h
    unfold generateLoot at h ⊢
    cases hg : genItems g o ov rands o.number_of_items 0 <;> simp_all
  · intro g o ov r msg h
    exact generateItem_err_msgs g o ov r msg h

/-- Witness for C5 (amended): on the empty catalog with one item requested and
empty overrides, `generate_loot` returns the selector's invalid-data error and
the generator is unchanged. -/
theorem claim5_selector_failure_witness :
    generateLoot PraedaGenerator.new levelOptions GeneratorOverrides.empty "k"
      (fun _ => rand0) = (.err "No items to select from", PraedaGenerator.new) :=
  claim5_selector_failure.1 PraedaGenerator.new levelOptions
    GeneratorOverrides.empty "k" (fun _ => rand0) (by decide) rfl rfl (Or.inl rfl)

/-- Counterexample to C5 as stated: requesting zero items from a catalog with
an empty quality map (and empty overrides) succeeds with zero items instead of
returning an error. -/
theorem claim5_zero_items_counterexample :
    (generateLoot PraedaGenerator.new zeroOptions GeneratorOverrides.empty "k"
      (fun _ => rand0)).1 = .ok []
    ∧ PraedaGenerator.new.quality_data = [] := by
  exact ⟨rfl, rfl⟩

end Praeda
